import Mathlib

/-!
Shallow embedding of the book persistence/repository core of the e_library
application.

The embedding covers, faithfully to the Python source:
  * the genres list ↔ comma-delimited string mapping of
    `BookRepository._convert_model_to_db` / `_convert_db_to_model`
    (`app/backend/repository/book_repository.py`);
  * the repository CRUD operations `create_book`, `get_all_books`,
    `get_book_by_id`, `update_book`, `delete_book`, modelled as explicit
    state transformers over the persisted table (a list of rows, in
    insertion order; `query(...).filter(...).first()` returns the first
    matching row; the primary-key constraint on `BookModel.id` makes an
    insert of a duplicate id fail without changing the table);
  * the upsert policy of `BackendClient.save_book` (`app/backend/client.py`).

Python string semantics modelled explicitly: `s.split(",")` splits at every
comma and yields `[""]` on the empty string; `s.strip()` drops leading and
trailing whitespace; `",".join(gs)` joins all elements, empty ones included;
truthiness of a string is non-emptiness, of a list non-emptiness, and of an
optional identifier its presence.
-/

/-- The whitespace characters stripped by Python `str.strip()` (ASCII set:
space, tab, newline, carriage return, vertical tab, form feed). -/
def isPySpace (c : Char) : Bool :=
  c == ' ' || c == '\t' || c == '\n' || c == '\r' || c == Char.ofNat 11 || c == Char.ofNat 12

/-- Python `s.strip()`: remove leading and trailing whitespace. -/
def pyStrip (s : String) : String :=
  (List.rdropWhile isPySpace (s.toList.dropWhile isPySpace)).asString

/-- Helper for `pySplitComma`: split a character list at every comma,
accumulating the current chunk in reverse. -/
def pySplitCommaAux : List Char → List Char → List (List Char)
  | [], acc => [acc.reverse]
  | c :: cs, acc =>
    if c = ',' then acc.reverse :: pySplitCommaAux cs [] else pySplitCommaAux cs (c :: acc)

/-- Python `s.split(",")`: split at every comma; the empty string yields
`[""]` and `n` commas yield `n + 1` chunks. -/
def pySplitComma (s : String) : List String :=
  (pySplitCommaAux s.toList []).map List.asString

/-- Helper for `pyJoinComma`, on character lists. -/
def pyJoinCommaL : List (List Char) → List Char
  | [] => []
  | [s] => s
  | s :: rest => s ++ ',' :: pyJoinCommaL rest

/-- Python `",".join(gs)`: interleave a comma between all elements
(empty elements included). -/
def pyJoinComma (gs : List String) : String :=
  (pyJoinCommaL (gs.map String.toList)).asString

/-- The persisted row shape (`BookModel`, `app/backend/db/models.py`).
`id` is the UUID primary key, modelled as an opaque `Nat`; `none` stands for
a not-yet-assigned key (the column default `uuid.uuid4` fires at insert).
`genres` is the comma-delimited encoding. -/
structure BookModel where
  id : Option Nat
  title : String
  author : String
  year_published : Option Int
  year_read : Option Int
  cover_image_path : Option String
  summary : Option String
  rating : Option Int
  genres : String
  cover_image : Option String
  is_remote_image : Bool
deriving DecidableEq, Repr

/-- The in-memory Book record (`BookSchema`; the pydantic `Book` model of
`app/models/models.py` carries these fields). `id = none` models a record
that carries no identifier. -/
structure BookSchema where
  id : Option Nat
  title : String
  author : String
  year_published : Option Int
  year_read : Option Int
  cover_image_path : Option String
  summary : Option String
  rating : Option Int
  genres : List String
  cover_image : Option String
  is_remote_image : Bool
deriving DecidableEq, Repr

/-- The genres encoding of `_convert_model_to_db`:
`",".join(book.genres) if book.genres else ""`. -/
def genres_to_db (genres : List String) : String :=
  if genres ≠ [] then pyJoinComma genres else ""

/-- The genres decoding of `_convert_db_to_model`:
`[genre.strip() for genre in db_book.genres.split(",") if genre.strip()]`
when the stored string is truthy, else `[]`. -/
def genres_to_model (s : String) : List String :=
  if s ≠ "" then ((pySplitComma s).filter (fun g => pyStrip g ≠ "")).map pyStrip else []

/-- `BookRepository._convert_model_to_db`: copy every field; encode genres. -/
def convert_model_to_db (book : BookSchema) : BookModel :=
  { id := book.id
    title := book.title
    author := book.author
    year_published := book.year_published
    year_read := book.year_read
    cover_image_path := book.cover_image_path
    summary := book.summary
    rating := book.rating
    genres := genres_to_db book.genres
    cover_image := book.cover_image
    is_remote_image := book.is_remote_image }

/-- `BookRepository._convert_db_to_model`: copy every field; decode genres. -/
def convert_db_to_model (db_book : BookModel) : BookSchema :=
  { id := db_book.id
    title := db_book.title
    author := db_book.author
    year_published := db_book.year_published
    year_read := db_book.year_read
    cover_image_path := db_book.cover_image_path
    summary := db_book.summary
    rating := db_book.rating
    genres := genres_to_model db_book.genres
    cover_image := db_book.cover_image
    is_remote_image := db_book.is_remote_image }

example : pySplitComma "a,b" = ["a", "b"] := by decide
example : pySplitComma "" = [""] := by decide
example : pyStrip "  x " = "x" := by decide
example : genres_to_model (genres_to_db ["Sci-Fi", " Drama ", ""]) = ["Sci-Fi", "Drama"] := by decide

/-- The SQL equality used by `query(BookModel).filter(BookModel.id == x)`:
a NULL key compares equal to nothing (SQLAlchemy renders `== None` as
`IS NULL`, which no stored primary key satisfies). -/
def sqlEq : Option Nat → Option Nat → Bool
  | some a, some b => a == b
  | _, _ => false

/-- `BookRepository.get_all_books`: map every row; the table is not touched. -/
def get_all_books (tbl : List BookModel) : List BookSchema × List BookModel :=
  (tbl.map convert_db_to_model, tbl)

/-- `BookRepository.get_book_by_id`: first row whose key equals `book_id`,
mapped; `None` when there is no such row. The table is not touched. -/
def get_book_by_id (book_id : Nat) (tbl : List BookModel) :
    Option BookSchema × List BookModel :=
  match tbl.find? (fun r => sqlEq r.id (some book_id)) with
  | some db_book => (some (convert_db_to_model db_book), tbl)
  | none => (none, tbl)

/-- The row `create_book` actually inserts: the converted record, with the
column default `uuid.uuid4` (modelled by `fresh`) supplying the primary key
when the record carries none. -/
def assign_default_id (fresh : Nat) (book : BookSchema) : BookModel :=
  { convert_model_to_db book with id := some ((convert_model_to_db book).id.getD fresh) }

/-- `BookRepository.create_book`: convert, insert, commit, refresh, convert
back. `fresh` is the UUID the column default `uuid.uuid4` would generate
when the record carries no identifier. Committing a row whose key already
exists violates the primary-key constraint: the insert fails and the table
is unchanged (`none` result). -/
def create_book (fresh : Nat) (book : BookSchema) (tbl : List BookModel) :
    Option BookSchema × List BookModel :=
  if tbl.any (fun r => sqlEq r.id (assign_default_id fresh book).id) then (none, tbl)
  else (some (convert_db_to_model (assign_default_id fresh book)),
    tbl ++ [assign_default_id fresh book])

/-- Replace the first row satisfying `p` by `nr` (the effect of the
`setattr` loop of `update_book` on the row returned by `.first()`). -/
def replaceFirst (p : BookModel → Bool) (nr : BookModel) : List BookModel → List BookModel
  | [] => []
  | r :: rs => if p r then nr :: rs else r :: replaceFirst p nr rs

/-- Remove the first row satisfying `p` (the effect of `session.delete` on
the row returned by `.first()`). -/
def removeFirst (p : BookModel → Bool) : List BookModel → List BookModel
  | [] => []
  | r :: rs => if p r then rs else r :: removeFirst p rs

/-- `BookRepository.update_book`: look up the row with the record's key;
`None` without touching the table when absent; otherwise overwrite every
attribute of that row with the freshly converted row (the `setattr` loop
copies all fields, `id` included) and return the refreshed record. -/
def update_book (book : BookSchema) (tbl : List BookModel) :
    Option BookSchema × List BookModel :=
  match tbl.find? (fun r => sqlEq r.id book.id) with
  | none => (none, tbl)
  | some _ =>
    let updated := convert_model_to_db book
    (some (convert_db_to_model updated), replaceFirst (fun r => sqlEq r.id book.id) updated tbl)

/-- `BookRepository.delete_book`: look up the row with key `book_id`;
`False` without touching the table when absent, else remove it and return
`True`. -/
def delete_book (book_id : Nat) (tbl : List BookModel) : Bool × List BookModel :=
  match tbl.find? (fun r => sqlEq r.id (some book_id)) with
  | none => (false, tbl)
  | some _ => (true, removeFirst (fun r => sqlEq r.id (some book_id)) tbl)

/-- `BackendClient.save_book`: when the record carries an identifier, look it
up; delegate to `update_book` when a row was found, else to `create_book`. -/
def save_book (fresh : Nat) (book : BookSchema) (tbl : List BookModel) :
    Option BookSchema × List BookModel :=
  let existing_book : Option BookSchema :=
    match book.id with
    | some bid => (get_book_by_id bid tbl).1
    | none => none
  match existing_book with
  | some _ => update_book book tbl
  | none => create_book fresh book tbl

/-- The stored keys, in storage order. -/
def ids (tbl : List BookModel) : List (Option Nat) :=
  tbl.map BookModel.id

/-- States reachable from `s0` through the mutating repository operations. -/
inductive ReachableFrom (s0 : List BookModel) : List BookModel → Prop
  | refl : ReachableFrom s0 s0
  | create (fresh : Nat) (book : BookSchema) (s : List BookModel) :
      ReachableFrom s0 s → ReachableFrom s0 (create_book fresh book s).2
  | update (book : BookSchema) (s : List BookModel) :
      ReachableFrom s0 s → ReachableFrom s0 (update_book book s).2
  | delete (bid : Nat) (s : List BookModel) :
      ReachableFrom s0 s → ReachableFrom s0 (delete_book bid s).2

/-! ### Lemmas about the comma split/join and strip primitives -/

lemma pySplitCommaAux_no_comma (cs : List Char) (h : ∀ c ∈ cs, c ≠ ',') :
    ∀ acc, pySplitCommaAux cs acc = [acc.reverse ++ cs] := by
  induction cs with
  | nil => intro acc; simp [pySplitCommaAux]
  | cons c cs ih =>
    intro acc
    have hc : c ≠ ',' := h c (by simp)
    simp only [pySplitCommaAux, if_neg hc]
    rw [ih (fun x hx => h x (by simp [hx]))]
    simp

lemma pySplitCommaAux_comma (cs : List Char) (h : ∀ c ∈ cs, c ≠ ',') :
    ∀ acc rest, pySplitCommaAux (cs ++ ',' :: rest) acc
      = (acc.reverse ++ cs) :: pySplitCommaAux rest [] := by
  induction cs with
  | nil => intro acc rest; simp [pySplitCommaAux]
  | cons c cs ih =>
    intro acc rest
    have hc : c ≠ ',' := h c (by simp)
    simp only [List.cons_append, pySplitCommaAux, if_neg hc, List.append_eq]
    rw [ih (fun x hx => h x (by simp [hx]))]
    simp

lemma pySplitCommaAux_pyJoinCommaL (css : List (List Char)) (hne : css ≠ [])
    (h : ∀ cs ∈ css, ∀ c ∈ cs, c ≠ ',') :
    pySplitCommaAux (pyJoinCommaL css) [] = css := by
  induction css with
  | nil => exact absurd rfl hne
  | cons x tail ih =>
    cases tail with
    | nil =>
      simp only [pyJoinCommaL]
      rw [pySplitCommaAux_no_comma x (h x (by simp)) []]
      simp
    | cons y rest =>
      simp only [pyJoinCommaL]
      rw [pySplitCommaAux_comma x (h x (by simp)) [] (pyJoinCommaL (y :: rest))]
      rw [ih (by simp) (fun cs hcs => h cs (by simp [hcs]))]
      simp

lemma pySplitComma_pyJoinComma (gs : List String) (hne : gs ≠ [])
    (h : ∀ g ∈ gs, ',' ∉ g.toList) :
    pySplitComma (pyJoinComma gs) = gs := by
  unfold pySplitComma pyJoinComma
  rw [List.toList_asString]
  rw [pySplitCommaAux_pyJoinCommaL (gs.map String.toList)
    (by simpa using hne)
    (by intro cs hcs c hc hceq
        obtain ⟨g, hg, rfl⟩ := List.mem_map.mp hcs
        exact h g hg (hceq ▸ hc))]
  rw [List.map_map]
  have h1 : List.asString ∘ String.toList = id := funext String.asString_toList
  rw [h1, List.map_id]

lemma mem_pySplitCommaAux_no_comma (l : List Char) :
    ∀ acc, (∀ c ∈ acc, c ≠ ',') →
      ∀ cs ∈ pySplitCommaAux l acc, ∀ c ∈ cs, c ≠ ',' := by
  induction l with
  | nil =>
    intro acc hacc cs hcs c hc
    simp only [pySplitCommaAux, List.mem_singleton] at hcs
    exact hacc c (by simpa [hcs] using hc)
  | cons x xs ih =>
    intro acc hacc cs hcs c hc
    by_cases hx : x = ','
    · simp only [pySplitCommaAux, if_pos hx, List.mem_cons] at hcs
      rcases hcs with rfl | hcs
      · exact hacc c (by simpa using hc)
      · exact ih [] (by simp) cs hcs c hc
    · simp only [pySplitCommaAux, if_neg hx] at hcs
      refine ih (x :: acc) ?_ cs hcs c hc
      intro c' hc'
      rcases List.mem_cons.mp hc' with rfl | hc'
      · exact hx
      · exact hacc c' hc'

lemma mem_pySplitComma_no_comma (s : String) :
    ∀ g ∈ pySplitComma s, ',' ∉ g.toList := by
  intro g hg hcomma
  unfold pySplitComma at hg
  obtain ⟨cs, hcs, rfl⟩ := List.mem_map.mp hg
  rw [List.toList_asString] at hcomma
  exact mem_pySplitCommaAux_no_comma s.toList [] (by simp) cs hcs ',' hcomma rfl

/-- Character-level strip: leading then trailing whitespace removal. -/
lemma pyStrip_toList (s : String) :
    (pyStrip s).toList = List.rdropWhile isPySpace (s.toList.dropWhile isPySpace) := by
  unfold pyStrip
  rw [List.toList_asString]

lemma dropWhile_rdropWhile_dropWhile (p : Char → Bool) (l : List Char) :
    (List.rdropWhile p (l.dropWhile p)).dropWhile p
      = List.rdropWhile p (l.dropWhile p) := by
  set m := l.dropWhile p with hm
  cases hr : List.rdropWhile p m with
  | nil => simp
  | cons a t =>
    have hpre : List.rdropWhile p m <+: m := List.rdropWhile_prefix p m
    rw [hr] at hpre
    obtain ⟨u, hu⟩ := hpre
    have hma : m = a :: (t ++ u) := by rw [← hu]; simp
    have hidem : m.dropWhile p = m := by rw [hm]; exact List.dropWhile_idempotent p l
    have hna : ¬ p a := by
      intro hpa
      have hlen : (List.dropWhile p (t ++ u)).length ≤ (t ++ u).length :=
        (List.dropWhile_suffix p).sublist.length_le
      rw [hma, List.dropWhile_cons, if_pos hpa] at hidem
      rw [hidem] at hlen
      simp at hlen
    rw [List.dropWhile_cons, if_neg hna]

lemma pyStrip_idem (s : String) : pyStrip (pyStrip s) = pyStrip s := by
  unfold pyStrip
  rw [List.toList_asString, dropWhile_rdropWhile_dropWhile, List.rdropWhile_idempotent]

lemma pyStrip_sublist (s : String) : (pyStrip s).toList.Sublist s.toList := by
  rw [pyStrip_toList]
  exact ((List.rdropWhile_prefix isPySpace _).sublist).trans
    ((List.dropWhile_suffix isPySpace).sublist)

lemma pyStrip_no_comma (s : String) (h : ',' ∉ s.toList) : ',' ∉ (pyStrip s).toList :=
  fun hc => h ((pyStrip_sublist s).subset hc)

lemma map_self_of_mem {α : Type} (l : List α) (f : α → α) (h : ∀ a ∈ l, f a = a) :
    l.map f = l := by
  induction l with
  | nil => rfl
  | cons x xs ih => simp [h x (by simp), ih (fun a ha => h a (by simp [ha]))]

/-- The genres round trip on comma-free sequences: encode then decode keeps
exactly the entries that do not strip to nothing, each stripped, in order. -/
lemma genres_roundtrip_core (gs : List String) (h : ∀ g ∈ gs, ',' ∉ g.toList) :
    genres_to_model (genres_to_db gs)
      = (gs.filter (fun g => pyStrip g ≠ "")).map pyStrip := by
  rcases gs with _ | ⟨x, _ | ⟨y, rest⟩⟩
  · simp [genres_to_db, genres_to_model]
  · have hx : ',' ∉ x.toList := h x (by simp)
    have hx' : ∀ c ∈ x.toList, c ≠ ',' := fun c hc hceq => hx (hceq ▸ hc)
    have hdb : genres_to_db [x] = x := by
      unfold genres_to_db
      rw [if_pos (show ([x] : List String) ≠ [] by simp)]
      exact String.asString_toList x
    rw [hdb]
    by_cases hxe : x = ""
    · subst hxe; decide
    · unfold genres_to_model
      rw [if_pos hxe]
      have hsplit : pySplitComma x = [x] := by
        unfold pySplitComma
        rw [pySplitCommaAux_no_comma x.toList hx' []]
        simp only [List.reverse_nil, List.nil_append, List.map_cons, List.map_nil]
        rw [String.asString_toList]
      rw [hsplit]
  · have hne : (x :: y :: rest : List String) ≠ [] := by simp
    have hjoin : genres_to_db (x :: y :: rest) = pyJoinComma (x :: y :: rest) := by
      simp [genres_to_db]
    have hjoin_ne : pyJoinComma (x :: y :: rest) ≠ "" := by
      unfold pyJoinComma pyJoinCommaL
      intro hc
      rw [show ("" : String) = List.asString [] from String.asString_nil.symm,
        List.asString_inj] at hc
      simp at hc
    rw [hjoin]
    unfold genres_to_model
    rw [if_pos hjoin_ne, pySplitComma_pyJoinComma _ hne h]

/-! ### Lemmas about the table operations -/

lemma sqlEq_true_iff (a b : Option Nat) :
    sqlEq a b = true ↔ ∃ n, a = some n ∧ b = some n := by
  cases a with
  | none => simp [sqlEq]
  | some x =>
    cases b with
    | none => simp [sqlEq]
    | some y =>
      simp only [sqlEq, beq_iff_eq]
      constructor
      · intro hxy; exact ⟨x, rfl, by rw [hxy]⟩
      · rintro ⟨n, hx, hy⟩; rw [Option.some_inj] at hx hy; rw [hx, hy]

lemma replaceFirst_length (p : BookModel → Bool) (nr : BookModel) :
    ∀ l, (replaceFirst p nr l).length = l.length := by
  intro l
  induction l with
  | nil => rfl
  | cons r rs ih =>
    unfold replaceFirst
    by_cases hp : p r
    · rw [if_pos hp]; simp
    · rw [if_neg hp]; simp [ih]

lemma removeFirst_sublist (p : BookModel → Bool) :
    ∀ l, (removeFirst p l).Sublist l := by
  intro l
  induction l with
  | nil => exact List.Sublist.refl []
  | cons r rs ih =>
    unfold removeFirst
    by_cases hp : p r
    · rw [if_pos hp]; exact List.sublist_cons_self r rs
    · rw [if_neg hp]; exact List.Sublist.cons₂ r ih

lemma removeFirst_length (p : BookModel → Bool) (l : List BookModel)
    (h : ∃ r ∈ l, p r = true) : (removeFirst p l).length + 1 = l.length := by
  induction l with
  | nil => simp at h
  | cons r rs ih =>
    unfold removeFirst
    by_cases hp : p r
    · rw [if_pos hp]; rfl
    · rw [if_neg hp]
      obtain ⟨r', hr', hpr'⟩ := h
      rcases List.mem_cons.mp hr' with rfl | hr'
      · exact absurd hpr' hp
      · simp only [List.length_cons]
        rw [← ih ⟨r', hr', hpr'⟩]

lemma replaceFirst_ids (p : BookModel → Bool) (nr : BookModel)
    (h : ∀ r, p r = true → nr.id = r.id) :
    ∀ l, ids (replaceFirst p nr l) = ids l := by
  intro l
  induction l with
  | nil => rfl
  | cons r rs ih =>
    unfold replaceFirst
    by_cases hp : p r
    · rw [if_pos hp]
      simp only [ids, List.map_cons]
      rw [h r hp]
    · rw [if_neg hp]
      simp only [ids, List.map_cons] at ih ⊢
      rw [ih]

lemma removeFirst_sqlEq_none (k : Option Nat) (l : List BookModel)
    (hnd : (ids l).Nodup) :
    ∀ r ∈ removeFirst (fun r => sqlEq r.id k) l, sqlEq r.id k = false := by
  induction l with
  | nil => intro r hr; simp [removeFirst] at hr
  | cons r0 rs ih =>
    have hnd' := hnd
    rw [ids, List.map_cons, List.nodup_cons] at hnd'
    obtain ⟨hnotmem, hndtail⟩ := hnd'
    intro r hr
    unfold removeFirst at hr
    by_cases hp : sqlEq r0.id k
    · rw [if_pos hp] at hr
      by_contra hcon
      have hrk : sqlEq r.id k = true := by
        cases hq : sqlEq r.id k
        · exact absurd hq hcon
        · rfl
      obtain ⟨n, hrn, hkn⟩ := (sqlEq_true_iff _ _).mp hrk
      obtain ⟨m, hr0m, hkm⟩ := (sqlEq_true_iff _ _).mp hp
      have : r0.id = r.id := by
        rw [hr0m, hrn]
        rw [hkn] at hkm
        exact hkm.symm
      exact hnotmem (this ▸ List.mem_map_of_mem BookModel.id hr)
    · rw [if_neg hp] at hr
      rcases List.mem_cons.mp hr with rfl | hr
      · cases hq : sqlEq r.id k
        · rfl
        · exact absurd hq hp
      · exact ih hndtail r hr

/-- Every entry decoded from a stored genres string is non-blank, already
stripped, and comma-free. -/
lemma mem_genres_to_model (s : String) (g : String) (hg : g ∈ genres_to_model s) :
    g ≠ "" ∧ pyStrip g = g ∧ ',' ∉ g.toList := by
  unfold genres_to_model at hg
  by_cases hs : s = ""
  · simp [hs] at hg
  · rw [if_pos hs] at hg
    obtain ⟨g0, hg0, rfl⟩ := List.mem_map.mp hg
    obtain ⟨hmem, hcond⟩ := List.mem_filter.mp hg0
    have hcond' : pyStrip g0 ≠ "" := by simpa using hcond
    exact ⟨hcond', pyStrip_idem g0,
      pyStrip_no_comma g0 (mem_pySplitComma_no_comma s g0 hmem)⟩

lemma sqlEq_none_right (a : Option Nat) : sqlEq a none = false := by
  cases a <;> rfl

lemma sqlEq_self (n : Nat) : sqlEq (some n) (some n) = true := by
  simp [sqlEq]

lemma assign_default_id_id (fresh : Nat) (book : BookSchema) :
    (assign_default_id fresh book).id = some (book.id.getD fresh) := rfl

lemma convert_model_to_db_id (book : BookSchema) :
    (convert_model_to_db book).id = book.id := rfl

/-- When neither the record's own key nor the generated key collides with a
stored key, the primary-key conflict check of `create_book` passes. -/
lemma no_conflict (fresh : Nat) (book : BookSchema) (tbl : List BookModel)
    (hnew : ∀ r ∈ tbl, sqlEq r.id book.id = false)
    (hfresh : ∀ r ∈ tbl, r.id ≠ some fresh) :
    ∀ r ∈ tbl, sqlEq r.id (some (book.id.getD fresh)) = false := by
  intro r hr
  cases hid : book.id with
  | some bid =>
    rw [Option.getD_some]
    have := hnew r hr
    rwa [hid] at this
  | none =>
    rw [Option.getD_none]
    cases hsq : sqlEq r.id (some fresh) with
    | false => rfl
    | true =>
      obtain ⟨m, hrm, hsm⟩ := (sqlEq_true_iff _ _).mp hsq
      rw [Option.some_inj] at hsm
      exact absurd (by rw [hrm, ← hsm]) (hfresh r hr)

/-- Successful insert: the conflict check passes, the converted row is
appended, and its read-back is returned. -/
lemma create_book_of_not_exists (fresh : Nat) (book : BookSchema) (tbl : List BookModel)
    (h : ∀ r ∈ tbl, sqlEq r.id (some (book.id.getD fresh)) = false) :
    create_book fresh book tbl
      = (some (convert_db_to_model (assign_default_id fresh book)),
         tbl ++ [assign_default_id fresh book]) := by
  have hany : tbl.any (fun r => sqlEq r.id (assign_default_id fresh book).id) = false := by
    rw [List.any_eq_false]
    intro r hr
    rw [assign_default_id_id]
    simp [h r hr]
  unfold create_book
  rw [hany]
  simp

lemma update_book_snd_length (book : BookSchema) (tbl : List BookModel) :
    ((update_book book tbl).2).length = tbl.length := by
  unfold update_book
  cases tbl.find? (fun r => sqlEq r.id book.id) <;> simp [replaceFirst_length]

/-- `save_book` dispatch, update side: the record carries a key matched by a
stored row, so the facade's lookup succeeds and it delegates to `update_book`. -/
lemma save_book_eq_update (fresh : Nat) (book : BookSchema) (tbl : List BookModel)
    (hex : ∃ r ∈ tbl, sqlEq r.id book.id = true) :
    save_book fresh book tbl = update_book book tbl := by
  obtain ⟨r, hr, hp⟩ := hex
  obtain ⟨n, hrn, hn⟩ := (sqlEq_true_iff _ _).mp hp
  have hex' : ∃ x ∈ tbl, sqlEq x.id (some n) = true := ⟨r, hr, by rw [← hn]; exact hp⟩
  obtain ⟨r0, hr0⟩ := Option.isSome_iff_exists.mp (List.find?_isSome.mpr hex')
  simp only [save_book, hn, get_book_by_id, hr0]

/-- `save_book` dispatch, create side: the record carries no key, or its key
matches no stored row; the facade delegates to `create_book`. -/
lemma save_book_eq_create (fresh : Nat) (book : BookSchema) (tbl : List BookModel)
    (hcase : book.id = none ∨ ∀ r ∈ tbl, sqlEq r.id book.id = false) :
    save_book fresh book tbl = create_book fresh book tbl := by
  rcases hcase with hnone | hforall
  · simp only [save_book, hnone]
  · cases hid : book.id with
    | none => simp only [save_book, hid]
    | some bid =>
      have hf : tbl.find? (fun r => sqlEq r.id (some bid)) = none :=
        List.find?_eq_none.mpr fun x hx => by
          have := hforall x hx
          rw [hid] at this
          simp [this]
      simp only [save_book, hid, get_book_by_id, hf]

/-! ### Sample data for witnesses and counterexamples -/

/-- A stored row with key 1. -/
def row1 : BookModel :=
  ⟨some 1, "Dune", "Herbert", some 1965, some 2020, none, none, some 5,
    "Sci-Fi,Classic", none, false⟩

/-- A record carrying the identifier 1 (matches `row1`). -/
def bookU : BookSchema :=
  ⟨some 1, "Dune", "Frank Herbert", some 1965, some 2021, none,
    some "desert planet", some 4, ["Fantasy"], none, false⟩

/-- A record carrying no identifier. -/
def bookN : BookSchema :=
  ⟨none, "The Hobbit", "Tolkien", some 1937, none, none, none, some 5,
    ["Fantasy"], none, false⟩

/-- A record with a blank genre entry and one needing trimming. -/
def book1 : BookSchema :=
  ⟨some 1, "Dune", "Herbert", some 1965, none, none, none, some 5,
    ["Sci-Fi", " Drama ", ""], none, false⟩

/-- A record with a comma inside a genre entry. -/
def bookC : BookSchema :=
  ⟨some 1, "Dune", "Herbert", some 1965, none, none, none, some 5,
    ["a,b"], none, false⟩

/-- A record with an empty string among its genre entries. -/
def bookE : BookSchema :=
  ⟨some 1, "Dune", "Herbert", some 1965, none, none, none, some 5,
    ["a", "", "b"], none, false⟩

/-- A record with an empty genres sequence. -/
def bookG : BookSchema :=
  ⟨some 1, "Dune", "Herbert", some 1965, none, none, none, some 5,
    [], none, false⟩

/-- The genres encoding as the specification words it — join exactly the
non-empty entries — stated for comparison with the source's `genres_to_db`. -/
def genres_to_db_spec (genres : List String) : String :=
  pyJoinComma (genres.filter (fun g => g ≠ ""))

/-! ### Claims -/

/-- Claim C9: the read operations `get_all_books` and `get_book_by_id` are
pure with respect to the stored state — both return the table exactly as it
was, adding, removing and changing nothing. -/
theorem reads_leave_table_unchanged (bid : Nat) (tbl : List BookModel) :
    (get_all_books tbl).2 = tbl ∧ (get_book_by_id bid tbl).2 = tbl := by
  refine ⟨rfl, ?_⟩
  unfold get_book_by_id
  cases tbl.find? (fun r => sqlEq r.id (some bid)) <;> simp

/-- Claim C7: `get_book_by_id` returns the mapped record of the stored row
with the requested key when one exists, and the explicit `none` signal (not
an exception — the function is total) otherwise; the table is returned
untouched in both cases. -/
theorem get_book_by_id_spec (bid : Nat) (tbl : List BookModel) :
    ((∀ r ∈ tbl, sqlEq r.id (some bid) = false) →
      get_book_by_id bid tbl = (none, tbl)) ∧
    ((∃ r ∈ tbl, sqlEq r.id (some bid) = true) →
      ∃ db_book, tbl.find? (fun r => sqlEq r.id (some bid)) = some db_book ∧
        get_book_by_id bid tbl = (some (convert_db_to_model db_book), tbl)) := by
  constructor
  · intro hnone
    have hf : tbl.find? (fun r => sqlEq r.id (some bid)) = none :=
      List.find?_eq_none.mpr fun x hx => by simp [hnone x hx]
    unfold get_book_by_id
    rw [hf]
  · intro hex
    have hsome : (tbl.find? (fun r => sqlEq r.id (some bid))).isSome :=
      List.find?_isSome.mpr hex
    obtain ⟨db_book, hdb⟩ := Option.isSome_iff_exists.mp hsome
    refine ⟨db_book, hdb, ?_⟩
    unfold get_book_by_id
    rw [hdb]

/-- Witness for C7 at a concrete table: key 2 is absent, key 1 present. -/
theorem get_book_by_id_spec_witness :
    get_book_by_id 2 [row1] = (none, [row1]) ∧
    (∃ db_book, List.find? (fun r => sqlEq r.id (some 1)) [row1] = some db_book ∧
      get_book_by_id 1 [row1] = (some (convert_db_to_model db_book), [row1])) :=
  ⟨(get_book_by_id_spec 2 [row1]).1 (by decide),
   (get_book_by_id_spec 1 [row1]).2 ⟨row1, by simp, by decide⟩⟩

/-- Claim C3: `update_book` on a key that matches no stored row returns the
`none` signal and leaves the table completely unchanged (it never inserts);
on a matching key it overwrites every mapped field of the matched row with
the converted record and returns the refreshed record, keeping the row
count unchanged. -/
theorem update_book_spec (book : BookSchema) (tbl : List BookModel) :
    ((∀ r ∈ tbl, sqlEq r.id book.id = false) →
      update_book book tbl = (none, tbl)) ∧
    ((∃ r ∈ tbl, sqlEq r.id book.id = true) →
      update_book book tbl
        = (some (convert_db_to_model (convert_model_to_db book)),
           replaceFirst (fun r => sqlEq r.id book.id) (convert_model_to_db book) tbl) ∧
      ((update_book book tbl).2).length = tbl.length) := by
  constructor
  · intro hnone
    have hf : tbl.find? (fun r => sqlEq r.id book.id) = none :=
      List.find?_eq_none.mpr fun x hx => by simp [hnone x hx]
    unfold update_book
    rw [hf]
  · intro hex
    have hsome : (tbl.find? (fun r => sqlEq r.id book.id)).isSome :=
      List.find?_isSome.mpr hex
    obtain ⟨r0, hr0⟩ := Option.isSome_iff_exists.mp hsome
    constructor
    · unfold update_book
      rw [hr0]
    · unfold update_book
      rw [hr0]
      exact replaceFirst_length _ _ tbl

/-- Witness for C3: updating against the empty table is a no-op signalled by
`none`; updating `row1` with `bookU` overwrites the row in place. -/
theorem update_book_spec_witness :
    update_book bookU [] = (none, []) ∧
    (update_book bookU [row1]
       = (some (convert_db_to_model (convert_model_to_db bookU)),
          replaceFirst (fun r => sqlEq r.id bookU.id) (convert_model_to_db bookU) [row1]) ∧
     ((update_book bookU [row1]).2).length = [row1].length) :=
  ⟨(update_book_spec bookU []).1 (by simp),
   (update_book_spec bookU [row1]).2 ⟨row1, by simp, by decide⟩⟩

/-- Claim C4: `delete_book` returns `true` exactly when a row with the
requested key existed, removing that row; on an absent key it returns
`false` with the table unchanged; and on a table with distinct keys a second
delete of the same key returns `false` and changes nothing further. -/
theorem delete_book_spec (bid : Nat) (tbl : List BookModel)
    (hnd : (ids tbl).Nodup) :
    ((∀ r ∈ tbl, sqlEq r.id (some bid) = false) →
      delete_book bid tbl = (false, tbl)) ∧
    ((∃ r ∈ tbl, sqlEq r.id (some bid) = true) →
      (delete_book bid tbl).1 = true ∧
      (delete_book bid tbl).2 = removeFirst (fun r => sqlEq r.id (some bid)) tbl ∧
      ((delete_book bid tbl).2).length + 1 = tbl.length ∧
      delete_book bid ((delete_book bid tbl).2) = (false, (delete_book bid tbl).2)) := by
  have absent : ∀ t : List BookModel, (∀ r ∈ t, sqlEq r.id (some bid) = false) →
      delete_book bid t = (false, t) := by
    intro t ht
    have hf : t.find? (fun r => sqlEq r.id (some bid)) = none :=
      List.find?_eq_none.mpr fun x hx => by simp [ht x hx]
    unfold delete_book
    rw [hf]
  refine ⟨absent tbl, ?_⟩
  intro hex
  have hsome : (tbl.find? (fun r => sqlEq r.id (some bid))).isSome :=
    List.find?_isSome.mpr hex
  obtain ⟨r0, hr0⟩ := Option.isSome_iff_exists.mp hsome
  have hred : delete_book bid tbl
      = (true, removeFirst (fun r => sqlEq r.id (some bid)) tbl) := by
    unfold delete_book
    rw [hr0]
  refine ⟨by rw [hred], by rw [hred], ?_, ?_⟩
  · rw [hred]
    exact removeFirst_length _ tbl hex
  · rw [hred]
    exact absent _ (removeFirst_sqlEq_none (some bid) tbl hnd)

/-- Witness for C4: deleting key 1 from `[row1]` succeeds and empties the
table; a second delete returns `false`; deleting the absent key 2 returns
`false` unchanged. -/
theorem delete_book_spec_witness :
    delete_book 2 [row1] = (false, [row1]) ∧
    ((delete_book 1 [row1]).1 = true ∧
     (delete_book 1 [row1]).2 = removeFirst (fun r => sqlEq r.id (some 1)) [row1] ∧
     ((delete_book 1 [row1]).2).length + 1 = [row1].length ∧
     delete_book 1 ((delete_book 1 [row1]).2) = (false, (delete_book 1 [row1]).2)) :=
  ⟨(delete_book_spec 2 [row1] (by decide)).1 (by decide),
   (delete_book_spec 1 [row1] (by decide)).2 ⟨row1, by simp, by decide⟩⟩

/-- Claim C5: `save_book` delegates to `update_book` exactly when the record
carries an identifier matched by a stored row — keeping the row count
unchanged — and otherwise delegates to `create_book`, inserting a new row
and growing the row count by one (assuming the generated key is fresh, as a
generated UUID is). -/
theorem save_book_spec (fresh : Nat) (book : BookSchema) (tbl : List BookModel)
    (hfresh : ∀ r ∈ tbl, r.id ≠ some fresh) :
    ((∃ r ∈ tbl, sqlEq r.id book.id = true) →
      save_book fresh book tbl = update_book book tbl ∧
      ((save_book fresh book tbl).2).length = tbl.length) ∧
    ((book.id = none ∨ ∀ r ∈ tbl, sqlEq r.id book.id = false) →
      save_book fresh book tbl = create_book fresh book tbl ∧
      ((save_book fresh book tbl).2).length = tbl.length + 1) := by
  constructor
  · intro hex
    have hsave := save_book_eq_update fresh book tbl hex
    refine ⟨hsave, ?_⟩
    rw [hsave]
    exact update_book_snd_length book tbl
  · intro hcase
    have hnew : ∀ r ∈ tbl, sqlEq r.id book.id = false := by
      rcases hcase with hnone | hforall
      · intro r hr
        rw [hnone]
        exact sqlEq_none_right r.id
      · exact hforall
    have hsave := save_book_eq_create fresh book tbl hcase
    refine ⟨hsave, ?_⟩
    rw [hsave, create_book_of_not_exists fresh book tbl (no_conflict fresh book tbl hnew hfresh)]
    simp

/-- Witness for C5: saving `bookU` (key 1, present) updates in place; saving
`bookN` (no key) inserts a new row. -/
theorem save_book_spec_witness :
    (save_book 99 bookU [row1] = update_book bookU [row1] ∧
     ((save_book 99 bookU [row1]).2).length = [row1].length) ∧
    (save_book 99 bookN [row1] = create_book 99 bookN [row1] ∧
     ((save_book 99 bookN [row1]).2).length = [row1].length + 1) :=
  ⟨(save_book_spec 99 bookU [row1] (by decide)).1 ⟨row1, by simp, by decide⟩,
   (save_book_spec 99 bookN [row1] (by decide)).2 (Or.inl rfl)⟩

/-- Claim C6: saving a record whose identifier matches no stored row (or that
carries none) and then looking up the identifier of the returned record
yields that same record. -/
theorem save_then_get_roundtrip (fresh : Nat) (book : BookSchema) (tbl : List BookModel)
    (hnew : ∀ r ∈ tbl, sqlEq r.id book.id = false)
    (hfresh : ∀ r ∈ tbl, r.id ≠ some fresh) :
    ∃ res : BookSchema, (save_book fresh book tbl).1 = some res ∧
      ∃ rid : Nat, res.id = some rid ∧
        (get_book_by_id rid ((save_book fresh book tbl).2)).1 = some res := by
  have hconf := no_conflict fresh book tbl hnew hfresh
  rw [save_book_eq_create fresh book tbl (Or.inr hnew),
    create_book_of_not_exists fresh book tbl hconf]
  refine ⟨convert_db_to_model (assign_default_id fresh book), rfl,
    book.id.getD fresh, rfl, ?_⟩
  have hfind : (tbl ++ [assign_default_id fresh book]).find?
      (fun r => sqlEq r.id (some (book.id.getD fresh)))
      = some (assign_default_id fresh book) := by
    rw [List.find?_append]
    have h1 : tbl.find? (fun r => sqlEq r.id (some (book.id.getD fresh))) = none :=
      List.find?_eq_none.mpr fun x hx => by simp [hconf x hx]
    rw [h1]
    have h2 : sqlEq (assign_default_id fresh book).id (some (book.id.getD fresh)) = true := by
      rw [assign_default_id_id]
      exact sqlEq_self _
    simp [List.find?_cons_of_pos, h2]
  unfold get_book_by_id
  rw [hfind]

/-- Witness for C6: saving the identifier-less `bookN` into `[row1]` and
reading back the returned identifier returns the saved record. -/
theorem save_then_get_roundtrip_witness :
    ∃ res : BookSchema, (save_book 99 bookN [row1]).1 = some res ∧
      ∃ rid : Nat, res.id = some rid ∧
        (get_book_by_id rid ((save_book 99 bookN [row1]).2)).1 = some res :=
  save_then_get_roundtrip 99 bookN [row1] (by decide) (by decide)

/-- Claim C8: starting from a table whose keys are pairwise distinct, every
state reachable through `create_book`, `update_book` and `delete_book` keeps
the keys pairwise distinct, and `update_book` never changes any stored key
(the matched row keeps the key it had before the call). -/
theorem ids_nodup_invariant (s0 : List BookModel) (h0 : (ids s0).Nodup) :
    (∀ s, ReachableFrom s0 s → (ids s).Nodup) ∧
    (∀ (book : BookSchema) (s : List BookModel), ids ((update_book book s).2) = ids s) := by
  have hupd : ∀ (book : BookSchema) (s : List BookModel),
      ids ((update_book book s).2) = ids s := by
    intro book s
    unfold update_book
    cases hf : s.find? (fun r => sqlEq r.id book.id) with
    | none => rfl
    | some r0 =>
      apply replaceFirst_ids
      intro r hp
      obtain ⟨n, hrn, hbn⟩ := (sqlEq_true_iff _ _).mp hp
      rw [convert_model_to_db_id, hrn, hbn]
  refine ⟨?_, hupd⟩
  intro s hs
  induction hs with
  | refl => exact h0
  | create fresh book s hstep ih =>
    cases hany : s.any (fun r => sqlEq r.id (assign_default_id fresh book).id) with
    | true =>
      have hc : create_book fresh book s = (none, s) := by
        unfold create_book
        rw [hany]
        simp
      rw [hc]
      exact ih
    | false =>
      have hc : (create_book fresh book s).2 = s ++ [assign_default_id fresh book] := by
        unfold create_book
        rw [hany]
        simp
      rw [hc, ids, List.map_append]
      refine List.Nodup.append ih (by simp) ?_
      intro a ha hb
      simp only [List.map_cons, List.map_nil, List.mem_singleton] at hb
      obtain ⟨r, hr, hrid⟩ := List.mem_map.mp ha
      have := List.any_eq_false.mp hany r hr
      rw [assign_default_id_id] at this hb
      obtain ⟨m, hm⟩ : ∃ m, book.id.getD fresh = m := ⟨_, rfl⟩
      rw [hm] at this hb
      rw [hrid, hb] at this
      exact this (sqlEq_self m)
  | update book s hstep ih =>
    rw [show ids ((update_book book s).2) = ids s from hupd book s]
    exact ih
  | delete bid s hstep ih =>
    unfold delete_book
    cases hf : s.find? (fun r => sqlEq r.id (some bid)) with
    | none => exact ih
    | some r0 =>
      exact List.Nodup.sublist
        ((removeFirst_sublist (fun r => sqlEq r.id (some bid)) s).map BookModel.id) ih

/-- Witness for C8: from the one-row table `[row1]`, the state after an
insert still has distinct keys, and updating with `bookU` preserves every
stored key. -/
theorem ids_nodup_invariant_witness :
    (ids ((create_book 2 bookN [row1]).2)).Nodup ∧
    ids ((update_book bookU [row1]).2) = ids [row1] :=
  ⟨(ids_nodup_invariant [row1] (by decide)).1 _
      (ReachableFrom.create 2 bookN [row1] ReachableFrom.refl),
   (ids_nodup_invariant [row1] (by decide)).2 bookU [row1]⟩

/-- Counterexample to C1 as stated: a genre entry containing a comma does
not survive the round trip — `["a,b"]` is stored as `"a,b"` and decoded as
`["a", "b"]`, not as the original non-blank trimmed entry `"a,b"`. -/
theorem genres_roundtrip_counterexample :
    (convert_db_to_model (convert_model_to_db bookC)).genres
      ≠ (bookC.genres.filter (fun g => pyStrip g ≠ "")).map pyStrip := by
  decide

/-- Claim C1 (amended to entries without commas): for every record whose
genre entries contain no comma, encoding genres to the stored delimited
string and decoding it back yields the original sequence with blank
(whitespace-only) entries removed and surrounding whitespace trimmed from
each remaining entry, in the original order. -/
theorem genres_roundtrip_comma_free (book : BookSchema)
    (h : ∀ g ∈ book.genres, ',' ∉ g.toList) :
    (convert_db_to_model (convert_model_to_db book)).genres
      = (book.genres.filter (fun g => pyStrip g ≠ "")).map pyStrip :=
  genres_roundtrip_core book.genres h

/-- Witness for C1 on the spec's own example: `["Sci-Fi", " Drama ", ""]`
round-trips to `["Sci-Fi", "Drama"]`. -/
theorem genres_roundtrip_comma_free_witness :
    (convert_db_to_model (convert_model_to_db book1)).genres = ["Sci-Fi", "Drama"] := by
  have h := genres_roundtrip_comma_free book1 (by decide)
  rw [h]
  decide

/-- Counterexample to C2 as stated: with genres `["a", "", "b"]` the code
stores `"a,,b"` (the join of all entries), not the join `"a,b"` of exactly
the non-empty entries. -/
theorem model_to_db_genres_counterexample :
    (convert_model_to_db bookE).genres ≠ genres_to_db_spec bookE.genres := by
  decide

/-- Claim C2 (amended): the Record-to-Row encoding copies every scalar field
verbatim and encodes `genres` by joining all sequence elements — empty ones
included — with commas; when `genres` is empty the encoded string is empty. -/
theorem convert_model_to_db_spec (book : BookSchema) :
    (convert_model_to_db book).id = book.id ∧
    (convert_model_to_db book).title = book.title ∧
    (convert_model_to_db book).author = book.author ∧
    (convert_model_to_db book).year_published = book.year_published ∧
    (convert_model_to_db book).year_read = book.year_read ∧
    (convert_model_to_db book).cover_image_path = book.cover_image_path ∧
    (convert_model_to_db book).summary = book.summary ∧
    (convert_model_to_db book).rating = book.rating ∧
    (convert_model_to_db book).cover_image = book.cover_image ∧
    (convert_model_to_db book).is_remote_image = book.is_remote_image ∧
    (convert_model_to_db book).genres = pyJoinComma book.genres ∧
    (book.genres = [] → (convert_model_to_db book).genres = "") := by
  refine ⟨rfl, rfl, rfl, rfl, rfl, rfl, rfl, rfl, rfl, rfl, ?_, ?_⟩
  · show genres_to_db book.genres = pyJoinComma book.genres
    unfold genres_to_db
    by_cases hg : book.genres = []
    · rw [if_neg (by simp [hg]), hg]
      rfl
    · rw [if_pos hg]
  · intro hg
    show genres_to_db book.genres = ""
    rw [hg]
    simp [genres_to_db]

/-- Witness for C2 at the empty genres sequence: the encoded string is
empty. -/
theorem convert_model_to_db_spec_witness :
    (convert_model_to_db bookG).genres = pyJoinComma bookG.genres ∧
    (convert_model_to_db bookG).genres = "" := by
  have h := convert_model_to_db_spec bookG
  exact ⟨(h.2.2.2.2.2.2.2.2.2.2).1, (h.2.2.2.2.2.2.2.2.2.2).2 rfl⟩

/-- Claim C10: decoding a stored genres string yields only non-blank,
already-trimmed entries, and decoding is stable — re-encoding a decoded
list and decoding again gives the same list back. -/
theorem genres_decode_normal_stable (s : String) :
    (∀ g ∈ genres_to_model s, g ≠ "" ∧ pyStrip g = g) ∧
    genres_to_model (genres_to_db (genres_to_model s)) = genres_to_model s := by
  constructor
  · intro g hg
    obtain ⟨h1, h2, _⟩ := mem_genres_to_model s g hg
    exact ⟨h1, h2⟩
  · have hcf : ∀ g ∈ genres_to_model s, ',' ∉ g.toList :=
      fun g hg => (mem_genres_to_model s g hg).2.2
    rw [genres_roundtrip_core (genres_to_model s) hcf]
    have hfil : (genres_to_model s).filter (fun g => pyStrip g ≠ "") = genres_to_model s := by
      rw [List.filter_eq_self]
      intro g hg
      obtain ⟨h1, h2, _⟩ := mem_genres_to_model s g hg
      simp [h2, h1]
    rw [hfil]
    exact map_self_of_mem _ _ (fun g hg => (mem_genres_to_model s g hg).2.1)
